import Mathlib

/-!
# Verification of the CelestialLadderTrial encrypted forwarding proxy

A shallow embedding, in Lean 4, of the parts of the Go sources that the
specification's claims are about:

* the XChaCha20 cipher stream (`server/common/common.go`),
* the target-address constructor (`server/common/common.go`),
* the tunneled ingress clock gate (`server/proxy/server/tls.go`),
* the tunneled egress handshake preludes (`server/proxy/client/tls.go`
  and the unnamed WSS/TLS dialer variants),
* the routing decision `GetRemote`, the rule engine and the country-IP
  index (`server/doh/aliyun.go`, `server/route/rule_engine.go`),
* the IPv4 packet codec (unnamed `tun` package file),
* the SOCKS ingress post-handshake dispatch (`server/proxy/server/socket.go`).

Bytes are modelled as `Nat` values (< 256 where the Go type is `byte`);
machine-integer wraparound is made explicit with `% 2^w`.
-/

namespace Proxy

/-! ## Byte-level helpers (encoding/binary, big endian) -/

/-- Big-endian 2-byte encoding of a `uint16` value, as in
`binary.BigEndian.PutUint16`.  The argument is reduced mod `2^16`,
mirroring the Go conversion to `uint16`. -/
def u16be (n : Nat) : List Nat :=
  [(n % 65536) / 256, n % 256]

/-- Big-endian 8-byte encoding of a `uint64` value, as in
`binary.BigEndian.PutUint64`. -/
def u64be (n : Nat) : List Nat :=
  [n % 2 ^ 64 / 2 ^ 56, n % 2 ^ 56 / 2 ^ 48, n % 2 ^ 48 / 2 ^ 40,
   n % 2 ^ 40 / 2 ^ 32, n % 2 ^ 32 / 2 ^ 24, n % 2 ^ 24 / 2 ^ 16,
   n % 2 ^ 16 / 2 ^ 8, n % 2 ^ 8]

/-- Go's unsigned 64-bit subtraction `a - b` (wraps modulo `2^64`).
For `a b < 2^64` this is exactly the value of the Go expression. -/
def goSub64 (a b : Nat) : Nat :=
  ((a + 2 ^ 64) - b) % 2 ^ 64

/-- Go's conversion `int16(n)` of a nonnegative integer-valued length:
truncate to 16 bits and interpret in two's complement. -/
def goInt16 (n : Nat) : Int :=
  if n % 65536 < 32768 then (n % 65536 : Int) else (n % 65536 : Int) - 65536

/-! ## Tunneled ingress clock gate (`TlsServer.Handshake`)

`server/proxy/server/tls.go` lines 154-158 (and identically the unnamed
variant, lines 103-107):

```go
ts := binary.BigEndian.Uint64(tBuf)
if uint64(time.Now().Unix())-ts > 10 {
    _, _ = cc.Write(common.DefaultHtml)
    return nil, nil, errors.New("The time between server and client must same.")
}
```

The subtraction is *unsigned* 64-bit arithmetic. -/

/-- Result of the timestamp gate: either the handshake proceeds to read
the length/address fields, or the server writes the decoy HTML page to
the TLS connection and returns an error (terminating the session
without dialing any egress). -/
inductive TsGateOutcome where
  | proceed : TsGateOutcome
  | rejectDecoy : TsGateOutcome
deriving DecidableEq, Repr

/-- The timestamp gate of `TlsServer.Handshake`: reject (write decoy
HTML, terminate) iff `uint64(now) - ts > 10` in unsigned 64-bit
arithmetic. -/
def tlsTsGate (now ts : Nat) : TsGateOutcome :=
  if goSub64 now ts > 10 then .rejectDecoy else .proceed

/-! ## Tunneled egress handshake preludes

After the TLS/WSS channel is up and the cipher stream wraps it, the
egress dialers write a prelude into the cipher stream.  Two client
styles exist in the sources:

* the unnamed `WSSRemote.Handshake` / `TlsRemote.Handshake` variants
  write `u64_be ts | u16_be proto | u16_be L | addr`;
* the in-tree `TlsRemote.Handshake` (`server/proxy/client/tls.go`,
  lines 53-82) writes `u64_be ts | u16_be L | addr` — no protocol tag.

All three guard the address length with `l := int16(len(addr));
if l > 253 { return error }` before writing the length field.

Each embedding returns the bytes written into the cipher stream so
far, paired with `true` on success and `false` when the dialer aborts
with the *AddressTooLong* error. -/

/-- `WSSRemote.Handshake` prelude writes (unnamed client file, lines
47-79): timestamp, protocol tag, then — after the `int16` length
guard — length and address.  On guard failure only the timestamp and
protocol bytes have been written. -/
def wssRemoteWrites (ts proto : Nat) (addr : List Nat) : List Nat × Bool :=
  let w := u64be ts ++ u16be proto
  if goInt16 addr.length > 253 then (w, false)
  else (w ++ u16be addr.length ++ addr, true)

/-- The unnamed `TlsRemote.Handshake` variant (unnamed client file,
lines 99-131) writes the same prelude as `WSSRemote`. -/
def tlsRemoteVariantWrites (ts proto : Nat) (addr : List Nat) : List Nat × Bool :=
  let w := u64be ts ++ u16be proto
  if goInt16 addr.length > 253 then (w, false)
  else (w ++ u16be addr.length ++ addr, true)

/-- The in-tree `TlsRemote.Handshake` (`server/proxy/client/tls.go`,
lines 53-82): timestamp, then — after the `int16` length guard —
length and address.  No protocol tag is written. -/
def tlsRemoteWrites (ts : Nat) (addr : List Nat) : List Nat × Bool :=
  let w := u64be ts
  if goInt16 addr.length > 253 then (w, false)
  else (w ++ u16be addr.length ++ addr, true)

/-! ## Strings, IPs and the target-address constructor

Embeddings of the Go standard-library helpers the proxy calls:
`strings.Split`, `strconv.ParseUint`, `strconv.Atoi`,
`net.SplitHostPort`, `net.ParseIP` and `net.ParseCIDR`.  They are
modelled for IPv4 addresses and host names; IPv6 literal parsing is
not modelled (no claim and no input considered here involves an IPv6
literal, and an unparsed host is kept as a `Name`, matching Go for
such inputs). -/

/-- An IPv4 address as four octets. -/
structure IPv4 where
  o1 : Nat
  o2 : Nat
  o3 : Nat
  o4 : Nat
deriving DecidableEq, Repr

/-- The 32-bit big-endian value of an IPv4 address. -/
def IPv4.toNat32 (ip : IPv4) : Nat :=
  ip.o1 * 2 ^ 24 + ip.o2 * 2 ^ 16 + ip.o3 * 2 ^ 8 + ip.o4

/-- Dotted-decimal form of an IPv4 address (`net.IP.String`). -/
def IPv4.toStr (ip : IPv4) : String :=
  toString ip.o1 ++ "." ++ toString ip.o2 ++ "." ++ toString ip.o3 ++ "." ++ toString ip.o4

/-- Split a character list around every occurrence of `sep`
(`strings.Split` with a one-character separator). -/
def splitOnChar (sep : Char) : List Char → List (List Char)
  | [] => [[]]
  | c :: rest =>
    if c = sep then [] :: splitOnChar sep rest
    else
      match splitOnChar sep rest with
      | h :: t => (c :: h) :: t
      | [] => [[c]]

/-- `strings.Split(s, ".")`. -/
def goSplitDots (s : String) : List String :=
  (splitOnChar '.' s.toList).map fun l => (⟨l⟩ : String)

/-- Decimal value of a digit list (most significant first). -/
def digitsVal (l : List Char) : Nat :=
  l.foldl (fun a c => a * 10 + (c.toNat - 48)) 0

/-- `strconv.ParseUint(s, 10, 64)`: value and success flag.  On a
syntax error Go returns `(0, ErrSyntax)`; on overflow it returns
`(MaxUint64, ErrRange)`. -/
def goParseUint64 (s : String) : Nat × Bool :=
  if s.toList = [] then (0, false)
  else if s.toList.all Char.isDigit then
    if digitsVal s.toList < 2 ^ 64 then (digitsVal s.toList, true) else (2 ^ 64 - 1, false)
  else (0, false)

/-- `strconv.Atoi(s)` (= `strconv.ParseInt(s, 10, 64)` here): value
and success flag.  Syntax errors yield `(0, false)`; overflow clamps
to the int64 range with `false`. -/
def goAtoi (s : String) : Int × Bool :=
  let (neg, ds) :=
    match s.toList with
    | '+' :: r => (false, r)
    | '-' :: r => (true, r)
    | r => (false, r)
  if ds = [] then (0, false)
  else if ds.all Char.isDigit then
    let v := digitsVal ds
    if neg then
      if v ≤ 2 ^ 63 then (-(v : Int), true) else (-(2 ^ 63 : Int), false)
    else
      if v < 2 ^ 63 then ((v : Int), true) else ((2 ^ 63 - 1 : Int), false)
  else (0, false)

/-- One dotted-decimal IPv4 field as accepted by `net.ParseIP`:
decimal digits, at most 3 of them, no leading zero, value at most
255. -/
def parseIPv4Octet (s : String) : Option Nat :=
  if s.toList = [] then none
  else if s.toList.all Char.isDigit ∧ s.toList.length ≤ 3 ∧
      (s.toList.length = 1 ∨ s.toList.head? ≠ some '0') then
    if digitsVal s.toList ≤ 255 then some (digitsVal s.toList) else none
  else none

/-- `net.ParseIP` restricted to IPv4 dotted-decimal form (see the
section comment: IPv6 literals are not modelled). -/
def goParseIP (s : String) : Option IPv4 :=
  match goSplitDots s with
  | [a, b, c, d] =>
    match parseIPv4Octet a, parseIPv4Octet b, parseIPv4Octet c, parseIPv4Octet d with
    | some x1, some x2, some x3, some x4 => some ⟨x1, x2, x3, x4⟩
    | _, _, _, _ => none
  | _ => none

/-- Index of the last `':'` in a character list, if any. -/
def lastColonIdx (l : List Char) : Option Nat :=
  match l.reverse.findIdx? (· = ':') with
  | none => none
  | some r => some (l.length - 1 - r)

/-- `net.SplitHostPort`: split `host:port`, with bracketed-IPv6
support; `none` on every error path (missing port, too many colons,
missing or stray brackets). -/
def goSplitHostPort (s : String) : Option (String × String) :=
  let l := s.toList
  match lastColonIdx l with
  | none => none
  | some i =>
    let hostJK : Option (List Char × Nat × Nat) :=
      if l.head? = some '[' then
        match l.findIdx? (· = ']') with
        | none => none
        | some e =>
          if e + 1 = l.length then none
          else if e + 1 = i then some ((l.drop 1).take (e - 1), 1, e + 1)
          else none
      else
        let host := l.take i
        if host.contains ':' then none else some (host, 0, 0)
    match hostJK with
    | none => none
    | some (host, j, k) =>
      if (l.drop j).contains '[' then none
      else if (l.drop k).contains ']' then none
      else some (⟨host⟩, ⟨l.drop (i + 1)⟩)

/-- A target address (`common.TargetAddr`): exactly one of `name` or
`ip` is populated, plus the port. -/
structure GoTargetAddr where
  name : String
  ip : Option IPv4
  port : Int
deriving DecidableEq, Repr

/-- `common.NewTargetAddr` (`server/common/common.go` lines 132-149).
Note the Go code computes `port, err := strconv.Atoi(portStr)` and
never checks this `err` (it was shadowed into the already-declared
variable); on a non-numeric port the function succeeds with the port
value 0 that `Atoi` returned alongside its error. -/
def newTargetAddr (addr : String) : Option GoTargetAddr :=
  match goSplitHostPort addr with
  | none => none
  | some (host0, portStr) =>
    let host := if host0 = "" then "127.0.0.1" else host0
    let port := (goAtoi portStr).1
    match goParseIP host with
    | some ip => some { name := "", ip := some ip, port := port }
    | none => some { name := host, ip := none, port := port }

/-! ## Decoy response and the SOCKS ingress post-handshake dispatch

`server/common/common.go` line 209:

```go
var DefaultHtml = []byte("HTTP/1.1 200 OK\r\nServer: nginx\r\nContent-Type: " +
    "text/html;charset=utf-8\r\nConnection: Close\r\nContent-Length: " +
    strconv.FormatInt(int64(len([]byte(Body))), 10) + "\r\n\r\n" + Body)
```

and `SocketServer.Start` (`server/proxy/server/socket.go` lines 64-87):
after its own SOCKS5/HTTP handshake succeeded, the server picks an
egress via `route.GetRemote` and calls `remote.Handshake`; if that
fails it executes `wConn.Write(common.DefaultHtml)` and returns
(closing the client connection via the deferred `conn.Close()`). -/

/-- `[]byte(s)` for the ASCII strings involved here (the decoy page
and its headers are ASCII). -/
def goStrBytes (s : String) : List Nat :=
  s.toList.map Char.toNat

/-- `common.DefaultHtml` as a function of the decoy HTML body: the
fixed `HTTP/1.1 200 OK` response head, the body's byte length as
`Content-Length`, a blank line, then the body. -/
def defaultHtml (body : String) : String :=
  "HTTP/1.1 200 OK\r\nServer: nginx\r\nContent-Type: text/html;charset=utf-8\r\nConnection: Close\r\nContent-Length: "
    ++ toString (goStrBytes body).length ++ "\r\n\r\n" ++ body

/-- What `SocketServer.Start` does to the client connection after
accepting it. -/
inductive ClientAction where
  | logAndClose : ClientAction
  | decoyThenClose : List Nat → ClientAction
  | relay : ClientAction
deriving DecidableEq, Repr

/-- The post-accept control flow of `SocketServer.Start`
(lines 64-87): failed SOCKS handshake → log and close; successful
SOCKS handshake but failed egress handshake → write `DefaultHtml` to
the client and close; both successful → bidirectional relay. -/
def socketSessionDispatch (body : String) (handshakeOk egressOk : Bool) : ClientAction :=
  if !handshakeOk then .logAndClose
  else if !egressOk then .decoyThenClose (goStrBytes (defaultHtml body))
  else .relay

/-! ## IPv4 packet codec (unnamed `tun` package file)

`ParseIPPacket`, `BuildIPPacket` and `calculateChecksum`.  A byte
slice is a `List Nat`; the indexed accesses of the Go parser are
rendered by matching off the 20 header bytes (the Go code checks
`len(data) < 20` first, which is the wildcard branch here). -/

/-- One's-complement 16-bit sum of the byte list taken as big-endian
16-bit words, with a trailing odd byte shifted into the high half
(the loop body of `calculateChecksum`). -/
def checksumSum : List Nat → Nat
  | [] => 0
  | [a] => a * 256
  | a :: b :: rest => (a * 256 + b) + checksumSum rest

/-- The carry-folding loop of `calculateChecksum`:
`for sum>>16 != 0 { sum = (sum & 0xFFFF) + (sum >> 16) }`. -/
def foldCarry (n : Nat) : Nat :=
  if n < 65536 then n
  else foldCarry ((n % 65536) + (n / 65536))
termination_by n
decreasing_by omega

/-- `calculateChecksum`: fold the word sum, then complement the low
16 bits (`^uint16(sum)`). -/
def calculateChecksum (data : List Nat) : Nat :=
  65535 ^^^ foldCarry (checksumSum data)

/-- `copy` of an IP address into a zeroed 4-byte header region. -/
def padTo4 (l : List Nat) : List Nat :=
  (l ++ List.replicate 4 0).take 4

/-- `BuildIPPacket`: fixed 20-byte header — version/IHL `0x45`, TOS 0,
total length, ID 0, flags `0x40` (DF) with zero fragment offset,
TTL 64, caller protocol, one's-complement header checksum — then the
source and destination IPv4 addresses and the payload. -/
def buildIPPacket (srcIP dstIP : List Nat) (protocol : Nat) (data : List Nat) : List Nat :=
  let totalLen := (20 + data.length) % 65536
  let headerZero :=
    [0x45, 0x00] ++ u16be totalLen ++ u16be 0 ++ [0x40, 0x00, 64, protocol] ++ u16be 0
      ++ padTo4 srcIP ++ padTo4 dstIP
  let checksum := calculateChecksum headerZero
  [0x45, 0x00] ++ u16be totalLen ++ u16be 0 ++ [0x40, 0x00, 64, protocol] ++ u16be checksum
    ++ padTo4 srcIP ++ padTo4 dstIP ++ data

/-- The result of `ParseIPPacket`. -/
structure IPPacket where
  version : Nat
  headerLen : Nat
  tos : Nat
  totalLen : Nat
  id : Nat
  flags : Nat
  fragOff : Nat
  ttl : Nat
  protocol : Nat
  checksum : Nat
  srcIP : List Nat
  dstIP : List Nat
  data : List Nat
deriving DecidableEq, Repr

/-- `ParseIPPacket`: reject short input, enforce version 4, verify the
header length against the input length, extract the header fields and
addresses, and expose the bytes past the header as `Data` (`nil`,
i.e. `[]`, when nothing follows the header). -/
def parseIPPacket (d : List Nat) : Option IPPacket :=
  match d with
  | b0 :: b1 :: b2 :: b3 :: b4 :: b5 :: b6 :: b7 :: b8 :: b9 ::
      b10 :: b11 :: b12 :: b13 :: b14 :: b15 :: b16 :: b17 :: b18 :: b19 :: rest =>
    let version := (b0 >>> 4) &&& 0x0F
    if version ≠ 4 then none
    else
      let headerLen := (b0 &&& 0x0F) * 4
      if 20 + rest.length < headerLen then none
      else
        some {
          version := version
          headerLen := headerLen
          tos := b1
          totalLen := b2 * 256 + b3
          id := b4 * 256 + b5
          flags := (b6 >>> 5) &&& 0x07
          fragOff := (b6 * 256 + b7) &&& 0x1FFF
          ttl := b8
          protocol := b9
          checksum := b10 * 256 + b11
          srcIP := [b12, b13, b14, b15]
          dstIP := [b16, b17, b18, b19]
          data :=
            if 20 + rest.length > headerLen then
              (b0 :: b1 :: b2 :: b3 :: b4 :: b5 :: b6 :: b7 :: b8 :: b9 ::
                b10 :: b11 :: b12 :: b13 :: b14 :: b15 :: b16 :: b17 :: b18 :: b19 ::
                rest).drop headerLen
            else [] }
  | _ => none

/-! ## The XChaCha20 cipher stream (`Chacha20Stream`, lazy variant)

`server/common/common.go` lines 40-97.  `Write` lazily creates the
encoder on its first call: it draws a random 24-byte nonce, sends the
nonce in clear, then XORs every payload with the keystream and
forwards it.  `Read` lazily creates the decoder on its first call: it
blocks until 24 nonce bytes are in, then XORs everything received.

The XChaCha20 core (`chacha20.NewUnauthenticatedCipher`) lives in the
external `golang.org/x/crypto` library; it is modelled as a parameter
`ks : List Nat → Nat → Nat` mapping the 24-byte nonce (the 32-byte
session key is fixed and implicit in `ks`) to the keystream, byte by
byte.  `XORKeyStream` keeps a position so that a stream may be
consumed across many calls.  The lossless transport is a byte queue
(`List Nat`) per direction. -/

/-- `XORKeyStream` on a chunk, starting at keystream offset
`start`. -/
def xorStream (ks : Nat → Nat) (start : Nat) : List Nat → List Nat
  | [] => []
  | b :: rest => (b ^^^ ks start) :: xorStream ks (start + 1) rest

/-- The bytes `Chacha20Stream.Write` sends over the transport for a
sequence of `Write` calls (one chunk per call).  The second argument
is the encoder state: `none` before the first call (no nonce sent
yet), `some pos` afterwards, `pos` being the keystream position. -/
def chachaWriterRun (ks : List Nat → Nat → Nat) (nonce : List Nat) :
    List (List Nat) → Option Nat → List Nat
  | [], _ => []
  | p :: rest, none =>
    nonce ++ xorStream (ks nonce) 0 p ++ chachaWriterRun ks nonce rest (some p.length)
  | p :: rest, some pos =>
    xorStream (ks nonce) pos p ++ chachaWriterRun ks nonce rest (some (pos + p.length))

/-- One `Chacha20Stream.Read` call with a buffer of size `m` against
the queued channel bytes.  The decoder state is `none` before the
first call, `some (nonce, pos)` afterwards.  On the first call the
reader consumes exactly 24 bytes of nonce (`io.ReadAtLeast`); fewer
available is the terminal nonce-read error (`none`).  A read then
returns `min m available` bytes, XORed with the keystream.  Result:
new state, bytes returned to the caller, remaining channel. -/
def chachaReadStep (ks : List Nat → Nat → Nat) (st : Option (List Nat × Nat))
    (chan : List Nat) (m : Nat) :
    Option ((List Nat × Nat) × List Nat × List Nat) :=
  match st with
  | none =>
    if chan.length < 24 then none
    else
      let nonce := chan.take 24
      let rest := chan.drop 24
      let n := min m rest.length
      some ((nonce, n), xorStream (ks nonce) 0 (rest.take n), rest.drop n)
  | some (nonce, pos) =>
    let n := min m chan.length
    some ((nonce, pos + n), xorStream (ks nonce) pos (chan.take n), chan.drop n)

/-- A sequence of `Read` calls with buffer sizes `sizes`: the
concatenation of the returned bytes and the remaining channel. -/
def chachaReaderRun (ks : List Nat → Nat → Nat) :
    List Nat → Option (List Nat × Nat) → List Nat → Option (List Nat × List Nat)
  | [], _, chan => some ([], chan)
  | m :: rest, st, chan =>
    match chachaReadStep ks st chan m with
    | none => none
    | some (st2, out, chan2) =>
      match chachaReaderRun ks rest (some st2) chan2 with
      | none => none
      | some (outs, chanEnd) => some (out ++ outs, chanEnd)

/-! ## Rule engine (`server/route/rule_engine.go`)

Strings are handled on their character lists so that everything
evaluates; `strings.TrimSpace`, `strings.Trim(s, "\r\t ")`,
`strings.Contains`, `strings.HasPrefix/HasSuffix` are the list
operations below. -/

/-- Trim characters satisfying `p` from both ends. -/
def trimBothBy (p : Char → Bool) (l : List Char) : List Char :=
  ((l.dropWhile p).reverse.dropWhile p).reverse

/-- `strings.TrimSpace`. -/
def goTrimSpace (s : String) : String :=
  ⟨trimBothBy Char.isWhitespace s.toList⟩

/-- `strings.Trim(s, "\r\t ")` as used by the country-IP loader. -/
def trimRTS (s : String) : String :=
  ⟨trimBothBy (fun c => c == '\r' || c == '\t' || c == ' ') s.toList⟩

/-- `strings.HasPrefix`. -/
def goHasPrefix (s pre : String) : Bool :=
  pre.toList.isPrefixOf s.toList

/-- `strings.HasSuffix`. -/
def goHasSuffix (s suffix : String) : Bool :=
  suffix.toList.isSuffixOf s.toList

/-- `strings.Contains` (substring search). -/
def containsSub (sub : List Char) : List Char → Bool
  | [] => sub.isEmpty
  | c :: rest => sub.isPrefixOf (c :: rest) || containsSub sub rest

/-- Apply a CIDR prefix mask of `mask` bits to a 32-bit value. -/
def maskApply32 (ip32 mask : Nat) : Nat :=
  ip32 / 2 ^ (32 - mask) * 2 ^ (32 - mask)

/-- `net.ParseCIDR` for IPv4: returns the *masked* network base (as a
32-bit value) and the prefix length. -/
def goParseCIDR (s : String) : Option (Nat × Nat) :=
  match splitOnChar '/' s.toList with
  | [ipPart, maskPart] =>
    match goParseIP ⟨ipPart⟩ with
    | none => none
    | some ip =>
      if maskPart ≠ [] ∧ maskPart.all Char.isDigit ∧ digitsVal maskPart ≤ 32 then
        some (maskApply32 ip.toNat32 (digitsVal maskPart), digitsVal maskPart)
      else none
  | _ => none

/-- A compiled rule (`cidrRule`, `ipRangeRule`, `domainWildcardRule`,
`exactRule`). -/
inductive GoRule where
  | cidr (base : Nat) (mask : Nat)
  | range (lo : IPv4) (hi : IPv4)
  | wildcard (pattern : String)
  | exact (value : String)
deriving DecidableEq, Repr

/-- `matchDomain`: strip any `:port` suffix, try exact match, then the
`*.suffix` and `prefix.*` wildcard shapes, falling back to substring
containment. -/
def matchDomain (domain pattern : String) : Bool :=
  let d : String :=
    match domain.toList.findIdx? (· = ':') with
    | some i => ⟨domain.toList.take i⟩
    | none => domain
  if pattern = d then true
  else if goHasPrefix pattern "*." then
    let suffix : String := ⟨pattern.toList.drop 2⟩
    goHasSuffix d ("." ++ suffix) || d = suffix
  else if goHasSuffix pattern ".*" then
    let pre : String := ⟨pattern.toList.take (pattern.toList.length - 2)⟩
    goHasPrefix d (pre ++ ".")
  else containsSub pattern.toList d.toList

/-- `Rule.Match`: CIDR and IP-range rules fire only when an IP is
supplied (`compareIP` on 4-byte addresses is numeric order); wildcard
rules go through `matchDomain`; exact rules are substring containment
on the whole target string. -/
def ruleMatch (r : GoRule) (target : String) (ip : Option IPv4) : Bool :=
  match r with
  | .cidr base mask =>
    match ip with
    | none => false
    | some i => maskApply32 i.toNat32 mask == base
  | .range lo hi =>
    match ip with
    | none => false
    | some i => lo.toNat32 ≤ i.toNat32 && i.toNat32 ≤ hi.toNat32
  | .wildcard pat => matchDomain target pat
  | .exact v => containsSub v.toList target.toList

/-- `parseRule`: trimmed-empty is dropped; a token with `/` tries
CIDR; a token with `-` and no `*` tries `lo-hi` with both sides IPs;
a token with `*` is a domain wildcard; anything else an exact
(substring) rule.  Failed CIDR/range parses fall through. -/
def parseRule (ruleStr : String) : Option GoRule :=
  let t := goTrimSpace ruleStr
  if t = "" then none
  else
    match (if t.toList.contains '/' then goParseCIDR t else none) with
    | some (base, mask) => some (.cidr base mask)
    | none =>
      match (if t.toList.contains '-' && !(t.toList.contains '*') then
               match splitOnChar '-' t.toList with
               | [p1, p2] =>
                 match goParseIP (goTrimSpace ⟨p1⟩), goParseIP (goTrimSpace ⟨p2⟩) with
                 | some a, some b => some (a, b)
                 | _, _ => none
               | _ => none
             else none) with
      | some (a, b) => some (.range a b)
      | none =>
        if t.toList.contains '*' then some (.wildcard t)
        else some (.exact t)

/-- `RuleEngine.LoadRules` for one list: parse every config token,
dropping the unparsable ones. -/
def loadRules (items : List String) : List GoRule :=
  items.filterMap parseRule

/-- `route.IsWhite`: parse the target string to recover an IP (a
failed parse leaves the IP empty), then ask the engine whether any
whitelist rule matches. -/
def isWhite (whiteRules : List GoRule) (target : String) : Bool :=
  let ip : Option IPv4 :=
    match newTargetAddr target with
    | some a => a.ip
    | none => none
  whiteRules.any (fun r => ruleMatch r target ip)

/-- `route.IsBlack`: same shape over the blacklist. -/
def isBlack (blackRules : List GoRule) (target : String) : Bool :=
  let ip : Option IPv4 :=
    match newTargetAddr target with
    | some a => a.ip
    | none => none
  blackRules.any (fun r => ruleMatch r target ip)

/-! ## Country-IP index (`server/doh/aliyun.go` `init` and `IsCnIp`) -/

/-- One `(min32, max32)` bucket entry. -/
structure IpRange where
  min : Nat
  max : Nat
deriving DecidableEq, Repr

/-- Modelled from the spec: `proxy/utils/helper.Ip2long` (the `helper`
package is not among the provided sources) converts a dotted-decimal
IPv4 string to its 32-bit value — "inside each bucket store
`(min32, max32)` pairs". -/
def ip2long (s : String) : Nat :=
  match goParseIP s with
  | some ip => ip.toNat32
  | none => 0

/-- One line of the country-IP file as loaded by `init`: trim
`"\r\t "`, skip blanks, require exactly four dot-separated segments,
parse the first segment as the bucket key (`uint8(first)`), parse the
CIDR, and store `min = Ip2long(network base)` (the loader prints the
masked base with `n.IP.String()` and re-parses it) with
`max = min + 2^(32-mask) - 1`.  (For `mask = 0` the Go conversion
`uint32(math.Pow(2, 32))` is implementation-specific; country-CIDR
files carry no `/0` line and the theorems below never depend on
one.) -/
def lineEntry (line : String) : Option (Nat × IpRange) :=
  let t := trimRTS line
  if t.toList.length > 0 then
    match goSplitDots t with
    | [s1, _, _, _] =>
      match goParseUint64 s1 with
      | (first, true) =>
        match goParseCIDR t with
        | some (base, mask) => some (first % 256, ⟨base, base + 2 ^ (32 - mask) - 1⟩)
        | none => none
      | (_, false) => none
    | _ => none
  else none

/-- The loaded table, flattened: `(bucket key, range)` in file order.
A Go map bucket `cnIp[k]` is the sublist with key `k`; an absent key
and an empty bucket are alike (both make `IsCnIp` return false). -/
def loadChinaIp (lines : List String) : List (Nat × IpRange) :=
  lines.filterMap lineEntry

/-- `IsCnIp`: split the query IP on dots, parse the first octet (the
parse error is ignored, yielding 0), look up that bucket and scan its
ranges for `min ≤ ip32 ≤ max`. -/
def isCnIp (table : List (Nat × IpRange)) (ip : String) : Bool :=
  let segs := goSplitDots ip
  let first := (goParseUint64 (segs.headD "")).1
  let bucket := table.filterMap fun e => if e.1 = first % 256 then some e.2 else none
  let mn := ip2long ip
  bucket.any fun v => mn ≥ v.min && mn ≤ v.max

/-! ## Routing decision (`GetRemote`, `server/doh/aliyun.go` route part)

The GFW matcher (`utils/gfwlist`, an external library) and the DoH
resolver (a network call) enter as oracles in `RouteEnv`:
`gfwBlocked` is the verdict of `gfw.IsBlockedByGFW` on the pseudo
request built from the target, and `dohAnswers` is the outcome of
`ECSQuery` for the target name (`none` = resolver error). -/

/-- A DoH answer record (`Type` 1 = A, `Data` dotted-decimal). -/
structure DnsAnswer where
  type : Nat
  data : String
deriving DecidableEq, Repr

/-- The routing verdict: which egress dialer `GetRemote` returns. -/
inductive RemoteKind where
  | direct : RemoteKind
  | tls : RemoteKind
  | wss : RemoteKind
deriving DecidableEq, Repr

/-- `config.Config.Out.Type` switch: 1 = `TlsRemote`, 2 = `WSSRemote`,
anything else falls to `DirectRemote`. -/
def tunnelOf (outType : Nat) : RemoteKind :=
  if outType = 1 then .tls else if outType = 2 then .wss else .direct

/-- The routing inputs: the `Out.Type` config (3 = direct mode), the
compiled white/black lists, the loaded country-IP table and the two
oracles. -/
structure RouteEnv where
  outType : Nat
  whiteRules : List GoRule
  blackRules : List GoRule
  cnTable : List (Nat × IpRange)
  gfwBlocked : String → Bool
  dohAnswers : Option (List DnsAnswer)

/-- `net.IP.IsLoopback` for IPv4. -/
def isLoopback (ip : IPv4) : Bool :=
  ip.o1 == 127

/-- `net.IP.IsPrivate` for IPv4: `10/8`, `172.16/12`, `192.168/16`. -/
def isPrivate (ip : IPv4) : Bool :=
  ip.o1 == 10 || (ip.o1 == 172 && 16 ≤ ip.o2 && ip.o2 ≤ 31) || (ip.o1 == 192 && ip.o2 == 168)

/-- The `for _, v := range rsp.Answer` loop of `GetRemote`: `ip` is
overwritten by each type-A record, so the loop keeps the **last**
type-A record's `Data` (empty if there is none). -/
def lastARecord (answers : List DnsAnswer) : String :=
  answers.foldl (fun acc v => if v.type = 1 then v.data else acc) ""

/-- `net.JoinHostPort`. -/
def joinHostPort (host port : String) : String :=
  if host.toList.contains ':' then "[" ++ host ++ "]:" ++ port else host ++ ":" ++ port

/-- `TargetAddr.String()`: `host:port` with the IP printed in
dotted-decimal when present. -/
def targetString (t : GoTargetAddr) : String :=
  match t.ip with
  | none => joinHostPort t.name (toString t.port)
  | some ip => joinHostPort ip.toStr (toString t.port)

/-- `GetRemote` (`server/doh/aliyun.go`, route part, lines 253-360):
direct mode short-circuits; then whitelist (→ direct), then blacklist
(→ tunnel dialer); hostname targets consult the GFW matcher, the
`.cn` suffix, and DoH — resolver failure, no A record, an unparsable,
loopback or private resolved IP, or a country-IP hit give direct,
anything else the tunnel dialer; IP targets check country-IP,
loopback and private the same way. -/
def getRemote (env : RouteEnv) (target : GoTargetAddr) : RemoteKind :=
  if env.outType = 3 then .direct
  else if isWhite env.whiteRules (targetString target) then .direct
  else if isBlack env.blackRules (targetString target) then tunnelOf env.outType
  else
    match target.ip with
    | none =>
      if env.gfwBlocked (targetString target) then tunnelOf env.outType
      else if goHasSuffix target.name ".cn" then .direct
      else
        match env.dohAnswers with
        | none => .direct
        | some answers =>
          let ip := lastARecord answers
          if ip ≠ "" then
            match goParseIP ip with
            | none => .direct
            | some ipObj =>
              if isLoopback ipObj || isPrivate ipObj then .direct
              else if isCnIp env.cnTable ip then .direct
              else tunnelOf env.outType
          else .direct
    | some ip =>
      if isCnIp env.cnTable ip.toStr || isLoopback ip || isPrivate ip then .direct
      else tunnelOf env.outType

/-- Spec-side definition, following the claim's words for C7 ("take
the first type-A record"): the `Data` of the **first** answer with
`Type = 1`, to be compared with the loop in `GetRemote`, which keeps
the last one. -/
def specFirstARecord (answers : List DnsAnswer) : String :=
  match answers.find? (fun v => v.type == 1) with
  | some v => v.data
  | none => ""

end Proxy

/-! ## C2 theorems -/

/-- C2 (counterexample): the claim says a prelude timestamp `ts` is
accepted iff `|now - ts| <= 10`, in particular `ts = now + 10` is
accepted.  At server clock `now = 1700000000` and `ts = 1700000010`
we have `|now - ts| = 10`, yet the code rejects the session: the
unsigned subtraction `uint64(now) - ts` wraps around to
`2^64 - 10 > 10`. -/
theorem C2_counterexample :
    Proxy.tlsTsGate 1700000000 1700000010 = Proxy.TsGateOutcome.rejectDecoy ∧
    ((1700000000 : Int) - 1700000010).natAbs ≤ 10 := by
  constructor
  · decide
  · decide

/-- C2 (amended): for every server clock `now` and prelude timestamp
`ts` (both `uint64` values), the tunneled ingress accepts the session
iff `(now - ts) mod 2^64 <= 10`; equivalently, iff either
`ts ∈ [now - 10, now]`, or `ts` is ahead of `now` by at least
`2^64 - 10` (the wraparound fringe).  In particular a timestamp ahead
of the server clock (by less than `2^64 - 10` seconds) is always
rejected, and on rejection the server writes the decoy HTML and
terminates without forwarding (the `rejectDecoy` outcome). -/
theorem C2_clock_gate (now ts : Nat) (hnow : now < 2 ^ 64) (hts : ts < 2 ^ 64) :
    Proxy.tlsTsGate now ts = Proxy.TsGateOutcome.proceed ↔
      ((ts ≤ now ∧ now - ts ≤ 10) ∨ (now < ts ∧ 2 ^ 64 - 10 ≤ ts - now)) := by
  unfold Proxy.tlsTsGate Proxy.goSub64
  rcases le_or_lt ts now with h | h
  · have : ((now + 2 ^ 64) - ts) % 2 ^ 64 = now - ts := by
      omega
    rw [this]
    constructor
    · intro hp
      left
      constructor
      · exact h
      · by_contra hgt
        simp only [if_pos (by omega : now - ts > 10)] at hp
        cases hp
    · intro hd
      have hne : ¬ (now - ts > 10) := by omega
      rw [if_neg hne]
  · have : ((now + 2 ^ 64) - ts) % 2 ^ 64 = 2 ^ 64 - (ts - now) := by
      omega
    rw [this]
    constructor
    · intro hp
      right
      constructor
      · exact h
      · by_contra hgt
        simp only [if_pos (by omega : 2 ^ 64 - (ts - now) > 10)] at hp
        cases hp
    · intro hd
      have hne : ¬ (2 ^ 64 - (ts - now) > 10) := by omega
      rw [if_neg hne]

/-- C2 witness: the amended gate at concrete inputs — `ts = now - 10`
is accepted. -/
theorem C2_clock_gate_witness :
    Proxy.tlsTsGate 1700000000 1699999990 = Proxy.TsGateOutcome.proceed := by
  have h := C2_clock_gate 1700000000 1699999990 (by norm_num) (by norm_num)
  exact h.mpr (Or.inl (by norm_num))

/-! ## C4 theorems -/

/-- C4 (counterexample): the claim says every successful tunneled
egress handshake writes `ts(8) | proto(2) | L(2) | addr` inside the
cipher stream.  The in-tree TLS dialer (`server/proxy/client/tls.go`)
succeeds on target `example.com:80` (proto tcp) at `ts = 1700000000`
but writes a 24-byte prelude with **no protocol tag**: the bytes differ
from the claimed sequence for both protocol tags 1 (tcp) and 3 (udp). -/
theorem C4_counterexample :
    (Proxy.tlsRemoteWrites 1700000000
        [101, 120, 97, 109, 112, 108, 101, 46, 99, 111, 109, 58, 56, 48]).2 = true ∧
    (Proxy.tlsRemoteWrites 1700000000
        [101, 120, 97, 109, 112, 108, 101, 46, 99, 111, 109, 58, 56, 48]).1 ≠
      Proxy.u64be 1700000000 ++ Proxy.u16be 1 ++ Proxy.u16be 14 ++
        [101, 120, 97, 109, 112, 108, 101, 46, 99, 111, 109, 58, 56, 48] ∧
    (Proxy.tlsRemoteWrites 1700000000
        [101, 120, 97, 109, 112, 108, 101, 46, 99, 111, 109, 58, 56, 48]).1 ≠
      Proxy.u64be 1700000000 ++ Proxy.u16be 3 ++ Proxy.u16be 14 ++
        [101, 120, 97, 109, 112, 108, 101, 46, 99, 111, 109, 58, 56, 48] := by
  refine ⟨by decide, by decide, by decide⟩

/-- C4 (amended): on every successful tunneled egress handshake, the
WSS dialer and the unnamed TLS dialer variant write exactly
`u64_be ts | u16_be proto | u16_be L | addr` inside the cipher stream
before any payload, while the in-tree TLS dialer writes exactly
`u64_be ts | u16_be L | addr`, omitting the 2-byte protocol tag. -/
theorem C4_prelude (ts proto : Nat) (addr : List Nat) (w : List Nat) :
    (Proxy.wssRemoteWrites ts proto addr = (w, true) →
      w = Proxy.u64be ts ++ Proxy.u16be proto ++ Proxy.u16be addr.length ++ addr) ∧
    (Proxy.tlsRemoteVariantWrites ts proto addr = (w, true) →
      w = Proxy.u64be ts ++ Proxy.u16be proto ++ Proxy.u16be addr.length ++ addr) ∧
    (Proxy.tlsRemoteWrites ts addr = (w, true) →
      w = Proxy.u64be ts ++ Proxy.u16be addr.length ++ addr) := by
  unfold Proxy.wssRemoteWrites Proxy.tlsRemoteVariantWrites Proxy.tlsRemoteWrites
  refine ⟨?_, ?_, ?_⟩ <;>
    · intro h
      split at h
      · exact absurd (congrArg Prod.snd h) (by simp)
      · have := congrArg Prod.fst h
        simp only at this
        rw [← this]

/-- C4 witness: the amended statement applied at `ts = 1700000000`,
`proto = 1`, address `"a"`. -/
theorem C4_prelude_witness :
    [0, 0, 0, 0, 101, 83, 241, 0, 0, 1, 0, 1, 97] =
      Proxy.u64be 1700000000 ++ Proxy.u16be 1 ++ Proxy.u16be [(97 : Nat)].length ++ [97] :=
  (C4_prelude 1700000000 1 [97] [0, 0, 0, 0, 101, 83, 241, 0, 0, 1, 0, 1, 97]).1 (by decide)

/-! ## C5 theorems -/

/-- C5 (counterexample): the claim says every address of length
`L > 253` is rejected with *AddressTooLong* before the length field or
any address byte is written.  The guard is `int16(len(addr)) > 253`,
so at `L = 32768` the cast wraps to `-32768`, the guard passes, and
the dialer writes the length field and the full address. -/
theorem C5_counterexample :
    Proxy.wssRemoteWrites 0 1 (List.replicate 32768 97) =
      (Proxy.u64be 0 ++ Proxy.u16be 1 ++ Proxy.u16be 32768 ++ List.replicate 32768 97,
        true) := by
  unfold Proxy.wssRemoteWrites
  rw [List.length_replicate]
  norm_num [Proxy.goInt16]

/-- C5 (amended): the tunneled client dialers reject with
*AddressTooLong* exactly when `int16(L)` exceeds 253, i.e. when
`L mod 2^16 ∈ [254, 32767]`; on rejection nothing beyond the already
written timestamp (and protocol tag, for the WSS dialer) has been
written — in particular no length byte and no address byte.  An address
of length exactly 253 is accepted and written in full after the length
field. -/
theorem C5_length_guard (ts proto : Nat) (addr : List Nat) :
    (254 ≤ addr.length % 65536 → addr.length % 65536 ≤ 32767 →
      Proxy.wssRemoteWrites ts proto addr = (Proxy.u64be ts ++ Proxy.u16be proto, false) ∧
      Proxy.tlsRemoteWrites ts addr = (Proxy.u64be ts, false)) ∧
    (addr.length = 253 →
      Proxy.wssRemoteWrites ts proto addr =
        (Proxy.u64be ts ++ Proxy.u16be proto ++ Proxy.u16be 253 ++ addr, true) ∧
      Proxy.tlsRemoteWrites ts addr = (Proxy.u64be ts ++ Proxy.u16be 253 ++ addr, true)) := by
  constructor
  · intro h1 h2
    have hg : Proxy.goInt16 addr.length > 253 := by
      unfold Proxy.goInt16
      rw [if_pos (by omega)]
      omega
    constructor
    · unfold Proxy.wssRemoteWrites
      rw [if_pos hg]
    · unfold Proxy.tlsRemoteWrites
      rw [if_pos hg]
  · intro h
    have hg : ¬ Proxy.goInt16 addr.length > 253 := by
      unfold Proxy.goInt16
      rw [h]
      norm_num
    constructor
    · unfold Proxy.wssRemoteWrites
      rw [if_neg hg, h]
    · unfold Proxy.tlsRemoteWrites
      rw [if_neg hg, h]

/-- C5 witness: length 254 is rejected with only the timestamp and
protocol tag written. -/
theorem C5_length_guard_witness :
    Proxy.wssRemoteWrites 0 1 (List.replicate 254 97) =
        (Proxy.u64be 0 ++ Proxy.u16be 1, false) ∧
      Proxy.tlsRemoteWrites 0 (List.replicate 254 97) = (Proxy.u64be 0, false) :=
  (C5_length_guard 0 1 (List.replicate 254 97)).1
    (by rw [List.length_replicate]) (by rw [List.length_replicate]; norm_num)

/-! ## C8 theorem -/

/-- C8 (code bug): `NewTargetAddr` is claimed to return a *BadAddress*
error for a non-numeric port.  The Go code computes
`port, err := strconv.Atoi(portStr)` but never checks that `err`
(it is shadowed into the variable declared by the earlier
`net.SplitHostPort` call), so on input `"example.com:abc"` the
constructor *succeeds* and returns a target with port 0.  A malformed
`host:port` (the `SplitHostPort` failure path) does return an error,
which shows the intent was to propagate parse errors. -/
theorem C8_atoi_error_dropped :
    Proxy.newTargetAddr "example.com:abc" =
        some { name := "example.com", ip := none, port := 0 } ∧
      Proxy.newTargetAddr "no-port-here" = none := by
  constructor
  · rfl
  · rfl

/-! ## C10 theorem -/

/-- C10: on the SOCKS5/HTTP ingress, when the client handshake has
succeeded but the selected egress dialer's handshake fails, the server
writes the fixed decoy HTML onto the client connection before closing
it.  The bytes written are `DefaultHtml`, which starts with
`"HTTP/1.1 200 OK\r\n"`; in particular the first byte is `'H'` (72),
not the SOCKS5 version byte `0x05`, so even a SOCKS5 client receives
the decoy page rather than a SOCKS5 error reply. -/
theorem C10_socks_decoy_on_egress_failure (body : String) :
    Proxy.socketSessionDispatch body true false =
        Proxy.ClientAction.decoyThenClose (Proxy.goStrBytes (Proxy.defaultHtml body)) ∧
      (Proxy.goStrBytes (Proxy.defaultHtml body)).take 17 =
        Proxy.goStrBytes "HTTP/1.1 200 OK\r\n" ∧
      (Proxy.goStrBytes (Proxy.defaultHtml body)).head? = some 72 := by
  refine ⟨rfl, ?_, ?_⟩
  · show (Proxy.goStrBytes
        ("HTTP/1.1 200 OK\r\nServer: nginx\r\nContent-Type: text/html;charset=utf-8\r\nConnection: Close\r\nContent-Length: "
          ++ toString (Proxy.goStrBytes body).length ++ "\r\n\r\n" ++ body)).take 17 = _
    unfold Proxy.goStrBytes
    simp only [String.toList]
    rw [String.data_append, String.data_append, String.data_append]
    rw [List.map_append, List.map_append, List.map_append]
    rw [List.append_assoc, List.append_assoc]
    rw [List.take_append_of_le_length (by decide)]
    decide
  · show (Proxy.goStrBytes
        ("HTTP/1.1 200 OK\r\nServer: nginx\r\nContent-Type: text/html;charset=utf-8\r\nConnection: Close\r\nContent-Length: "
          ++ toString (Proxy.goStrBytes body).length ++ "\r\n\r\n" ++ body)).head? = _
    unfold Proxy.goStrBytes
    simp only [String.toList]
    rw [String.data_append, String.data_append, String.data_append]
    rw [List.map_append, List.map_append, List.map_append]
    rw [List.append_assoc, List.append_assoc]
    rw [List.head?_append_of_ne_nil _ (by decide)]
    decide

/-! ## Checksum lemmas and the C9 round-trip -/

/-- The carry fold always lands strictly below `2^16`. -/
theorem foldCarry_lt (n : Nat) : Proxy.foldCarry n < 65536 := by
  induction n using Nat.strong_induction_on with
  | _ n ih =>
    rw [Proxy.foldCarry]
    split
    · assumption
    · exact ih _ (by omega)

/-- The carry fold preserves the residue modulo `65535`
(`2^16 ≡ 1 (mod 2^16 - 1)`). -/
theorem foldCarry_mod (n : Nat) : Proxy.foldCarry n % 65535 = n % 65535 := by
  induction n using Nat.strong_induction_on with
  | _ n ih =>
    rw [Proxy.foldCarry]
    split
    · rfl
    · rw [ih _ (by omega)]
      omega

/-- The carry fold of a positive number is positive. -/
theorem foldCarry_pos (n : Nat) (h : 0 < n) : 0 < Proxy.foldCarry n := by
  induction n using Nat.strong_induction_on with
  | _ n ih =>
    rw [Proxy.foldCarry]
    split
    · assumption
    · exact ih _ (by omega) (by omega)

/-- XOR with the all-ones word `2^k - 1` is complement below `2^k`. -/
theorem two_pow_sub_one_xor (k : Nat) : ∀ x, x < 2 ^ k → (2 ^ k - 1) ^^^ x = (2 ^ k - 1) - x := by
  induction k with
  | zero =>
    intro x hx
    have : x = 0 := by omega
    subst this
    rfl
  | succ k ih =>
    intro x hx
    have ht : 1 ≤ 2 ^ k := Nat.one_le_two_pow
    have hp : 2 ^ (k + 1) = 2 ^ k * 2 := pow_succ 2 k
    have hhalf : (2 ^ (k + 1) - 1) / 2 = 2 ^ k - 1 := by omega
    have hdiv : ((2 ^ (k + 1) - 1) ^^^ x) / 2 = (2 ^ k - 1) - x / 2 := by
      rw [Nat.xor_div_two, hhalf]
      exact ih (x / 2) (by omega)
    have hmod : ((2 ^ (k + 1) - 1) ^^^ x) % 2 = ((2 ^ (k + 1) - 1) + x) % 2 :=
      Nat.xor_mod_two_eq
    have hdm := Nat.div_add_mod ((2 ^ (k + 1) - 1) ^^^ x) 2
    omega

/-- XOR with the all-ones 16-bit word is complement. -/
theorem xor16_compl (x : Nat) (hx : x < 65536) : 65535 ^^^ x = 65535 - x := by
  have h := two_pow_sub_one_xor 16 x (by omega)
  norm_num at h
  exact h

/-- A positive multiple of `65535` folds to exactly `65535`. -/
theorem foldCarry_eq_65535 (n : Nat) (hpos : 0 < n) (hmod : n % 65535 = 0) :
    Proxy.foldCarry n = 65535 := by
  have h1 := foldCarry_lt n
  have h2 := foldCarry_mod n
  have h3 := foldCarry_pos n hpos
  omega

/-- Filling the one's-complement of the folded sum back into the sum
makes the checksum validate (fold to all-ones, complement to zero). -/
theorem checksum_fill (S : Nat) (hS : 0 < S) :
    65535 ^^^ Proxy.foldCarry (S + (65535 - Proxy.foldCarry S)) = 0 := by
  have h1 := foldCarry_lt S
  have h2 := foldCarry_mod S
  have hm : (S + (65535 - Proxy.foldCarry S)) % 65535 = 0 := by omega
  have hp : 0 < S + (65535 - Proxy.foldCarry S) := by omega
  rw [foldCarry_eq_65535 _ hp hm]
  simp

/-- A list of length 4 is a four-element literal. -/
theorem list_length_eq_four {α : Type} {l : List α} (h : l.length = 4) :
    ∃ a b c d, l = [a, b, c, d] :=
  let [a, b, c, d] := l
  ⟨a, b, c, d, rfl⟩

/-- `buildIPPacket` on explicit four-octet addresses, written out as
the 20 header bytes followed by the payload. -/
theorem buildIPPacket_eq (s1 s2 s3 s4 d1 d2 d3 d4 proto : Nat) (payload : List Nat) :
    Proxy.buildIPPacket [s1, s2, s3, s4] [d1, d2, d3, d4] proto payload =
      69 :: 0 :: ((20 + payload.length) % 65536 % 65536 / 256) ::
        ((20 + payload.length) % 65536 % 256) :: 0 :: 0 :: 64 :: 0 :: 64 :: proto ::
        (Proxy.calculateChecksum [69, 0, (20 + payload.length) % 65536 % 65536 / 256,
            (20 + payload.length) % 65536 % 256, 0, 0, 64, 0, 64, proto, 0, 0,
            s1, s2, s3, s4, d1, d2, d3, d4] % 65536 / 256) ::
        (Proxy.calculateChecksum [69, 0, (20 + payload.length) % 65536 % 65536 / 256,
            (20 + payload.length) % 65536 % 256, 0, 0, 64, 0, 64, proto, 0, 0,
            s1, s2, s3, s4, d1, d2, d3, d4] % 256) ::
        s1 :: s2 :: s3 :: s4 :: d1 :: d2 :: d3 :: d4 :: payload := rfl

/-- C9: parsing the packet produced by `BuildIPPacket` succeeds and
returns the source and destination addresses, the protocol and the
payload unchanged, and the one's-complement checksum over the built
20-byte header validates (recomputing it over the final header yields
zero). -/
theorem C9_build_parse_roundtrip (src dst : List Nat) (proto : Nat) (payload : List Nat)
    (hsrc : src.length = 4) (hdst : dst.length = 4) (hproto : proto < 256)
    (htot : 20 + payload.length ≤ 65535) :
    (Proxy.parseIPPacket (Proxy.buildIPPacket src dst proto payload)).map
        Proxy.IPPacket.srcIP = some src ∧
    (Proxy.parseIPPacket (Proxy.buildIPPacket src dst proto payload)).map
        Proxy.IPPacket.dstIP = some dst ∧
    (Proxy.parseIPPacket (Proxy.buildIPPacket src dst proto payload)).map
        Proxy.IPPacket.protocol = some proto ∧
    (Proxy.parseIPPacket (Proxy.buildIPPacket src dst proto payload)).map
        Proxy.IPPacket.data = some payload ∧
    Proxy.calculateChecksum ((Proxy.buildIPPacket src dst proto payload).take 20) = 0 := by
  obtain ⟨s1, s2, s3, s4, rfl⟩ := list_length_eq_four hsrc
  obtain ⟨d1, d2, d3, d4, rfl⟩ := list_length_eq_four hdst
  rw [buildIPPacket_eq]
  generalize hc : Proxy.calculateChecksum [69, 0, (20 + payload.length) % 65536 % 65536 / 256,
      (20 + payload.length) % 65536 % 256, 0, 0, 64, 0, 64, proto, 0, 0,
      s1, s2, s3, s4, d1, d2, d3, d4] = c
  simp only [Proxy.parseIPPacket]
  have hv : ((69 : Nat) >>> 4 &&& 15 = 4) := by decide
  have hl20 : ((69 : Nat) &&& 15) * 4 = 20 := by decide
  have hnv : ((69 : Nat) >>> 4 &&& 15 ≠ 4) = False := eq_false (by decide)
  simp only [hl20, hnv, if_false, ite_false]
  have hnlt : ¬ (20 + payload.length < 20) := by omega
  simp only [if_neg hnlt, Option.map_some]
  refine ⟨rfl, rfl, rfl, ?_, ?_⟩
  · rcases payload with _ | ⟨a, tl⟩
    · simp
    · have hgt : 20 + (a :: tl).length > 20 := by simp
      rw [if_pos hgt]
      rfl
  · show 65535 ^^^ Proxy.foldCarry (Proxy.checksumSum
        [69, 0, (20 + payload.length) % 65536 % 65536 / 256,
          (20 + payload.length) % 65536 % 256, 0, 0, 64, 0, 64, proto,
          c % 65536 / 256, c % 256, s1, s2, s3, s4, d1, d2, d3, d4]) = 0
    have hc2 : 65535 ^^^ Proxy.foldCarry (Proxy.checksumSum
        [69, 0, (20 + payload.length) % 65536 % 65536 / 256,
          (20 + payload.length) % 65536 % 256, 0, 0, 64, 0, 64, proto, 0, 0,
          s1, s2, s3, s4, d1, d2, d3, d4]) = c := hc
    rw [xor16_compl _ (foldCarry_lt _)] at hc2
    have hfle := foldCarry_lt (Proxy.checksumSum
        [69, 0, (20 + payload.length) % 65536 % 65536 / 256,
          (20 + payload.length) % 65536 % 256, 0, 0, 64, 0, 64, proto, 0, 0,
          s1, s2, s3, s4, d1, d2, d3, d4])
    have hS0pos : 0 < Proxy.checksumSum
        [69, 0, (20 + payload.length) % 65536 % 65536 / 256,
          (20 + payload.length) % 65536 % 256, 0, 0, 64, 0, 64, proto, 0, 0,
          s1, s2, s3, s4, d1, d2, d3, d4] := by
      simp only [Proxy.checksumSum]
      omega
    have hsum : Proxy.checksumSum
        [69, 0, (20 + payload.length) % 65536 % 65536 / 256,
          (20 + payload.length) % 65536 % 256, 0, 0, 64, 0, 64, proto,
          c % 65536 / 256, c % 256, s1, s2, s3, s4, d1, d2, d3, d4] =
        Proxy.checksumSum
          [69, 0, (20 + payload.length) % 65536 % 65536 / 256,
            (20 + payload.length) % 65536 % 256, 0, 0, 64, 0, 64, proto, 0, 0,
            s1, s2, s3, s4, d1, d2, d3, d4] + c := by
      simp only [Proxy.checksumSum]
      omega
    rw [hsum, ← hc2]
    exact checksum_fill _ hS0pos

/-- C9 witness: the round trip at a concrete packet
(`10.0.0.1 → 8.8.8.8`, protocol 6, payload `[1, 2, 3]`). -/
theorem C9_build_parse_roundtrip_witness :
    (Proxy.parseIPPacket (Proxy.buildIPPacket [10, 0, 0, 1] [8, 8, 8, 8] 6 [1, 2, 3])).map
        Proxy.IPPacket.srcIP = some [10, 0, 0, 1] ∧
    (Proxy.parseIPPacket (Proxy.buildIPPacket [10, 0, 0, 1] [8, 8, 8, 8] 6 [1, 2, 3])).map
        Proxy.IPPacket.dstIP = some [8, 8, 8, 8] ∧
    (Proxy.parseIPPacket (Proxy.buildIPPacket [10, 0, 0, 1] [8, 8, 8, 8] 6 [1, 2, 3])).map
        Proxy.IPPacket.protocol = some 6 ∧
    (Proxy.parseIPPacket (Proxy.buildIPPacket [10, 0, 0, 1] [8, 8, 8, 8] 6 [1, 2, 3])).map
        Proxy.IPPacket.data = some [1, 2, 3] ∧
    Proxy.calculateChecksum ((Proxy.buildIPPacket [10, 0, 0, 1] [8, 8, 8, 8] 6 [1, 2, 3]).take 20)
      = 0 :=
  C9_build_parse_roundtrip [10, 0, 0, 1] [8, 8, 8, 8] 6 [1, 2, 3] rfl rfl
    (by decide) (by decide)

/-! ## Cipher stream lemmas and the C1 round-trip -/

/-- XOR with the keystream preserves length. -/
theorem xorStream_length (ks : Nat → Nat) (start : Nat) (l : List Nat) :
    (Proxy.xorStream ks start l).length = l.length := by
  induction l generalizing start with
  | nil => rfl
  | cons b rest ih => simp [Proxy.xorStream, ih]

/-- The keystream XOR distributes over concatenation, the second part
starting where the first ended. -/
theorem xorStream_append (ks : Nat → Nat) (start : Nat) (a b : List Nat) :
    Proxy.xorStream ks start (a ++ b) =
      Proxy.xorStream ks start a ++ Proxy.xorStream ks (start + a.length) b := by
  induction a generalizing start with
  | nil => simp [Proxy.xorStream]
  | cons x rest ih =>
    simp only [List.cons_append, Proxy.xorStream, List.length_cons, List.append_eq, ih]
    rw [show start + (rest.length + 1) = start + 1 + rest.length by omega]

/-- XOR with the same keystream at the same offset is an involution. -/
theorem xorStream_involution (ks : Nat → Nat) (start : Nat) (l : List Nat) :
    Proxy.xorStream ks start (Proxy.xorStream ks start l) = l := by
  induction l generalizing start with
  | nil => rfl
  | cons b rest ih =>
    simp only [Proxy.xorStream, Nat.xor_cancel_right, ih]

/-- Taking a prefix commutes with the keystream XOR. -/
theorem xorStream_take (ks : Nat → Nat) (start n : Nat) (l : List Nat) :
    (Proxy.xorStream ks start l).take n = Proxy.xorStream ks start (l.take n) := by
  induction l generalizing start n with
  | nil => simp [Proxy.xorStream]
  | cons b rest ih =>
    cases n with
    | zero => simp [Proxy.xorStream]
    | succ k => simp [Proxy.xorStream, ih]

/-- Dropping a prefix commutes with the keystream XOR, shifting the
offset. -/
theorem xorStream_drop (ks : Nat → Nat) (start n : Nat) (l : List Nat) :
    (Proxy.xorStream ks start l).drop n = Proxy.xorStream ks (start + n) (l.drop n) := by
  induction l generalizing start n with
  | nil => simp [Proxy.xorStream]
  | cons b rest ih =>
    cases n with
    | zero => simp
    | succ k =>
      simp only [Proxy.xorStream, List.drop_succ_cons, ih]
      ring_nf

/-- A writer whose encoder is already initialized at position `pos`
sends exactly the keystream XOR of the concatenated chunks. -/
theorem chachaWriterRun_some (ks : List Nat → Nat → Nat) (nonce : List Nat)
    (chunks : List (List Nat)) (pos : Nat) :
    Proxy.chachaWriterRun ks nonce chunks (some pos) =
      Proxy.xorStream (ks nonce) pos chunks.flatten := by
  induction chunks generalizing pos with
  | nil => rfl
  | cons p rest ih =>
    simp only [Proxy.chachaWriterRun, ih, List.flatten_cons, xorStream_append]

/-- The full writer: for a nonempty sequence of `Write` calls the wire
carries the 24-byte nonce in clear, exactly once, before any
ciphertext, followed by the keystream XOR of the concatenated
plaintext. -/
theorem chachaWriterRun_closed (ks : List Nat → Nat → Nat) (nonce : List Nat)
    (chunks : List (List Nat)) (h : chunks ≠ []) :
    Proxy.chachaWriterRun ks nonce chunks none =
      nonce ++ Proxy.xorStream (ks nonce) 0 chunks.flatten := by
  cases chunks with
  | nil => exact absurd rfl h
  | cons p rest =>
    simp only [Proxy.chachaWriterRun, chachaWriterRun_some, List.flatten_cons,
      xorStream_append, List.append_assoc, Nat.zero_add]

/-- An initialized reader at keystream position `pos`, facing a
channel that holds the encryption (from position `pos`) of plaintext
`P`, returns exactly `P` once the read buffers add up to at least
`|P|`. -/
theorem chachaReaderRun_complete (ks : List Nat → Nat → Nat) (nonce : List Nat)
    (sizes : List Nat) (pos : Nat) (P : List Nat) (h : P.length ≤ sizes.sum) :
    Proxy.chachaReaderRun ks sizes (some (nonce, pos)) (Proxy.xorStream (ks nonce) pos P) =
      some (P, []) := by
  induction sizes generalizing pos P with
  | nil =>
    have hP : P = [] := List.eq_nil_of_length_eq_zero (by simpa using h)
    subst hP
    rfl
  | cons m rest ih =>
    simp only [Proxy.chachaReaderRun, Proxy.chachaReadStep, xorStream_length,
      xorStream_take, xorStream_drop, xorStream_involution]
    have hrec := ih (pos + min m P.length) (P.drop (min m P.length))
      (by simp only [List.length_drop, List.sum_cons] at h ⊢; omega)
    rw [hrec]
    simp

/-- C1: over a lossless transport, for every keystream (the XChaCha20
core, parameterized over the 24-byte nonce at the fixed shared key),
every nonce, every sequence of writer chunks `P = chunks.flatten` and
every sequence of reader buffer sizes adding up to at least `|P|`:
the writer emits the 24-byte nonce in clear exactly once before any
ciphertext (the wire is `nonce ++ keystream-XOR of P`), and the
reader — which consumes exactly 24 bytes of nonce before decoding any
payload — returns `P' = P`. -/
theorem C1_cipher_roundtrip (ks : List Nat → Nat → Nat) (nonce : List Nat)
    (chunks : List (List Nat)) (sizes : List Nat)
    (hnonce : nonce.length = 24) (hchunks : chunks ≠ [])
    (hsizes : chunks.flatten.length ≤ sizes.sum) :
    Proxy.chachaWriterRun ks nonce chunks none =
      nonce ++ Proxy.xorStream (ks nonce) 0 chunks.flatten ∧
    (Proxy.chachaReaderRun ks sizes none
        (Proxy.chachaWriterRun ks nonce chunks none)).map Prod.fst =
      some chunks.flatten := by
  have hw := chachaWriterRun_closed ks nonce chunks hchunks
  refine ⟨hw, ?_⟩
  rw [hw]
  cases sizes with
  | nil =>
    have hP : chunks.flatten = [] := List.eq_nil_of_length_eq_zero (by simpa using hsizes)
    rw [hP]
    rfl
  | cons m rest =>
    have hlen : ¬ ((nonce ++ Proxy.xorStream (ks nonce) 0 chunks.flatten).length < 24) := by
      simp [List.length_append, hnonce]
    have htake : (nonce ++ Proxy.xorStream (ks nonce) 0 chunks.flatten).take 24 = nonce := by
      conv_lhs => rw [← hnonce]
      exact List.take_left _ _
    have hdropn : (nonce ++ Proxy.xorStream (ks nonce) 0 chunks.flatten).drop 24 =
        Proxy.xorStream (ks nonce) 0 chunks.flatten := by
      conv_lhs => rw [← hnonce]
      exact List.drop_left _ _
    simp only [Proxy.chachaReaderRun, Proxy.chachaReadStep, if_neg hlen, htake, hdropn,
      xorStream_length, xorStream_take, xorStream_involution, xorStream_drop, Nat.zero_add]
    have hrec := chachaReaderRun_complete ks nonce rest (min m chunks.flatten.length)
      (chunks.flatten.drop (min m chunks.flatten.length))
      (by simp only [List.length_drop, List.sum_cons] at hsizes ⊢; omega)
    rw [hrec]
    simp

/-- C1 witness: the round trip at a concrete keystream, nonce, chunk
sequence `[[1,2,3],[200]]` and read sizes `[2,10]`. -/
theorem C1_cipher_roundtrip_witness :
    Proxy.chachaWriterRun (fun nonce i => (nonce.headD 0 + i) % 256) (List.replicate 24 7)
        [[1, 2, 3], [200]] none =
      List.replicate 24 7 ++ Proxy.xorStream (fun i => (7 + i) % 256) 0 [1, 2, 3, 200] ∧
    (Proxy.chachaReaderRun (fun nonce i => (nonce.headD 0 + i) % 256) [2, 10] none
        (Proxy.chachaWriterRun (fun nonce i => (nonce.headD 0 + i) % 256)
          (List.replicate 24 7) [[1, 2, 3], [200]] none)).map Prod.fst =
      some [1, 2, 3, 200] :=
  C1_cipher_roundtrip (fun nonce i => (nonce.headD 0 + i) % 256) (List.replicate 24 7)
    [[1, 2, 3], [200]] [2, 10] rfl (by simp) (by decide)

/-! ## C3 theorems -/

/-- C3: `GetRemote` checks the whitelist before the blacklist — if any
whitelist rule matches the target, the verdict is `Direct`, whatever
the blacklist holds. -/
theorem C3_whitelist_precedence (env : Proxy.RouteEnv) (target : Proxy.GoTargetAddr)
    (h : Proxy.isWhite env.whiteRules (Proxy.targetString target) = true) :
    Proxy.getRemote env target = Proxy.RemoteKind.direct := by
  unfold Proxy.getRemote
  split
  · rfl
  · simp [h]

/-- C3 witness: `white_list=["10.0.0.0/8"]`, `black_list=["10.5.5.5/32"]`,
out = WSS, target `10.5.5.5:80` — the blacklist rule matches too, yet
the verdict is `Direct`. -/
theorem C3_whitelist_precedence_witness :
    Proxy.isBlack (Proxy.loadRules ["10.5.5.5/32"])
        (Proxy.targetString { name := "", ip := some ⟨10, 5, 5, 5⟩, port := 80 }) = true ∧
    Proxy.getRemote
        { outType := 2, whiteRules := Proxy.loadRules ["10.0.0.0/8"],
          blackRules := Proxy.loadRules ["10.5.5.5/32"], cnTable := [],
          gfwBlocked := fun _ => false, dohAnswers := none }
        { name := "", ip := some ⟨10, 5, 5, 5⟩, port := 80 } = Proxy.RemoteKind.direct :=
  ⟨by decide, C3_whitelist_precedence _ _ (by decide)⟩

/-! ## C7 theorems -/

/-- C7 (counterexample): the claim says the verdict is based on the
**first** type-A record.  With answers
`[A 114.114.114.114, A 8.8.8.8]` and a country-IP table containing
`114.114.0.0/16`, the first A record is a country IP, so the claim
predicts `Direct`; the code keeps the **last** A record (`8.8.8.8`)
and returns the WSS tunnel dialer. -/
theorem C7_counterexample :
    Proxy.getRemote
        { outType := 2, whiteRules := [], blackRules := [],
          cnTable := Proxy.loadChinaIp ["114.114.0.0/16"],
          gfwBlocked := fun _ => false,
          dohAnswers := some [⟨1, "114.114.114.114"⟩, ⟨1, "8.8.8.8"⟩] }
        { name := "dns.test", ip := none, port := 53 } = Proxy.RemoteKind.wss ∧
    Proxy.specFirstARecord [⟨1, "114.114.114.114"⟩, ⟨1, "8.8.8.8"⟩] = "114.114.114.114" ∧
    Proxy.isCnIp (Proxy.loadChinaIp ["114.114.0.0/16"]) "114.114.114.114" = true := by
  refine ⟨by decide, by decide, by decide⟩

/-- C7 (amended): for a hostname target not decided by rules, GFW or
the `.cn` suffix, the verdict is based on the **last** type-A record
of the DoH answers: resolver failure, no A record, or an unparsable
last A record give `Direct`; a loopback, private or country-IP last
record gives `Direct`; anything else gives the configured tunnel
dialer. -/
theorem C7_doh_routing (env : Proxy.RouteEnv) (target : Proxy.GoTargetAddr)
    (hip : target.ip = none)
    (hout : env.outType ≠ 3)
    (hwhite : Proxy.isWhite env.whiteRules (Proxy.targetString target) = false)
    (hblack : Proxy.isBlack env.blackRules (Proxy.targetString target) = false)
    (hgfw : env.gfwBlocked (Proxy.targetString target) = false)
    (hcn : Proxy.goHasSuffix target.name ".cn" = false) :
    (env.dohAnswers = none → Proxy.getRemote env target = Proxy.RemoteKind.direct) ∧
    (∀ answers, env.dohAnswers = some answers →
      (Proxy.lastARecord answers = "" →
        Proxy.getRemote env target = Proxy.RemoteKind.direct) ∧
      (Proxy.lastARecord answers ≠ "" →
        Proxy.goParseIP (Proxy.lastARecord answers) = none →
        Proxy.getRemote env target = Proxy.RemoteKind.direct) ∧
      (∀ ip4, Proxy.lastARecord answers ≠ "" →
        Proxy.goParseIP (Proxy.lastARecord answers) = some ip4 →
        Proxy.getRemote env target =
          if Proxy.isLoopback ip4 || Proxy.isPrivate ip4
              || Proxy.isCnIp env.cnTable (Proxy.lastARecord answers)
          then Proxy.RemoteKind.direct else Proxy.tunnelOf env.outType)) := by
  constructor
  · intro hd
    simp [Proxy.getRemote, hip, hwhite, hblack, hgfw, hcn, hout, hd]
  · intro answers hd
    refine ⟨?_, ?_, ?_⟩
    · intro hempty
      simp [Proxy.getRemote, hip, hwhite, hblack, hgfw, hcn, hout, hd, hempty]
    · intro hne hparse
      simp [Proxy.getRemote, hip, hwhite, hblack, hgfw, hcn, hout, hd, hne, hparse]
    · intro ip4 hne hparse
      cases hl : Proxy.isLoopback ip4 <;> cases hp : Proxy.isPrivate ip4 <;>
        cases hc : Proxy.isCnIp env.cnTable (Proxy.lastARecord answers) <;>
          simp [Proxy.getRemote, hip, hwhite, hblack, hgfw, hcn, hout, hd, hne, hparse,
            hl, hp, hc]

/-- C7 witness: a hostname target resolved to a single public A record
under TLS egress yields the TLS dialer. -/
theorem C7_doh_routing_witness :
    Proxy.getRemote
        { outType := 1, whiteRules := [], blackRules := [],
          cnTable := Proxy.loadChinaIp ["114.114.0.0/16"],
          gfwBlocked := fun _ => false, dohAnswers := some [⟨1, "8.8.8.8"⟩] }
        { name := "example.org", ip := none, port := 443 } = Proxy.RemoteKind.tls := by
  have h := ((C7_doh_routing
      { outType := 1, whiteRules := [], blackRules := [],
        cnTable := Proxy.loadChinaIp ["114.114.0.0/16"],
        gfwBlocked := fun _ => false, dohAnswers := some [⟨1, "8.8.8.8"⟩] }
      { name := "example.org", ip := none, port := 443 }
      rfl (by decide) (by decide) (by decide) rfl (by decide)).2
      [⟨1, "8.8.8.8"⟩] rfl).2.2 ⟨8, 8, 8, 8⟩ (by decide) (by decide)
  rw [h]
  decide

/-! ## Country-IP index lemmas and the C6 theorems -/

/-- A field accepted by the IPv4 parser is also accepted by
`strconv.ParseUint` with the same value, and that value fits an
octet. -/
theorem parseOctet_goParseUint (s : String) (v : Nat)
    (h : Proxy.parseIPv4Octet s = some v) :
    Proxy.goParseUint64 s = (v, true) ∧ v ≤ 255 := by
  unfold Proxy.parseIPv4Octet at h
  split at h
  · simp at h
  · split at h
    · split at h
      · injection h with hv
        subst hv
        rename_i h1 h2 h3
        unfold Proxy.goParseUint64
        rw [if_neg h1, if_pos h2.1, if_pos (by omega)]
        exact ⟨rfl, h3⟩
      · simp at h
    · simp at h

/-- C6 (amended): for every IPv4 address and every loaded table,
`IsCnIp(ip)` is true iff some CIDR line whose **own first octet equals
the first octet of `ip`** loads to a range covering `ip` — coverage by
a line bucketed under a different first octet (a CIDR wider than /8
spilling over its first octet) is not seen. -/
theorem C6_cn_index (lines : List String) (ipStr : String) (ip4 : Proxy.IPv4)
    (hparse : Proxy.goParseIP ipStr = some ip4) :
    Proxy.isCnIp (Proxy.loadChinaIp lines) ipStr = true ↔
      ∃ line ∈ lines, ∃ e, Proxy.lineEntry line = some e ∧ e.1 = ip4.o1 ∧
        e.2.min ≤ ip4.toNat32 ∧ ip4.toNat32 ≤ e.2.max := by
  have hp0 := hparse
  unfold Proxy.goParseIP at hparse
  split at hparse
  · rename_i a b c d heq
    split at hparse
    · rename_i x1 x2 x3 x4 h1 h2 h3 h4
      injection hparse with hip
      subst hip
      have hu1 := parseOctet_goParseUint a x1 h1
      unfold Proxy.isCnIp Proxy.ip2long
      rw [heq, hp0]
      simp only [List.headD_cons]
      have hx1 : x1 % 256 = x1 := Nat.mod_eq_of_lt (by omega)
      simp only [hu1.1, hx1]
      simp only [Proxy.loadChinaIp, List.any_eq_true, List.mem_filterMap,
        Bool.and_eq_true, decide_eq_true_eq, ge_iff_le]
      constructor
      · rintro ⟨r, ⟨e, ⟨line, hline, he⟩, hif⟩, hc1, hc2⟩
        by_cases hkey : e.1 = x1
        · rw [if_pos hkey] at hif
          injection hif with hr
          subst hr
          exact ⟨line, hline, e, he, hkey, hc1, hc2⟩
        · rw [if_neg hkey] at hif
          simp at hif
      · rintro ⟨line, hline, e, he, hkey, hc1, hc2⟩
        exact ⟨e.2, ⟨e, ⟨line, hline, he⟩, by rw [if_pos hkey]⟩, hc1, hc2⟩
    · simp at hparse
  · simp at hparse

/-- C6 (counterexample): the claim says `IsCnIp(ip)` is true iff some
CIDR line's range covers `ip`.  The line `10.0.0.0/7` denotes the
range `10.0.0.0 – 11.255.255.255` (base `167772160`, spanning two
first octets) and covers `11.0.0.1`, but it is bucketed only under
first octet 10, so `IsCnIp("11.0.0.1")` scans the empty bucket 11 and
returns false. -/
theorem C6_counterexample :
    Proxy.isCnIp (Proxy.loadChinaIp ["10.0.0.0/7"]) "11.0.0.1" = false ∧
    Proxy.goParseCIDR "10.0.0.0/7" = some (167772160, 7) ∧
    167772160 ≤ Proxy.ip2long "11.0.0.1" ∧
    Proxy.ip2long "11.0.0.1" ≤ 167772160 + 2 ^ (32 - 7) - 1 := by
  refine ⟨by decide, by decide, by decide, by decide⟩

/-- C6 witness: `114.114.114.114` against a table loaded from
`114.114.0.0/16` is recognized. -/
theorem C6_cn_index_witness :
    Proxy.isCnIp (Proxy.loadChinaIp ["114.114.0.0/16"]) "114.114.114.114" = true :=
  (C6_cn_index ["114.114.0.0/16"] "114.114.114.114" ⟨114, 114, 114, 114⟩ (by decide)).mpr
    ⟨"114.114.0.0/16", by simp, (114, ⟨1920073728, 1920139263⟩), by decide, by decide,
      by decide, by decide⟩

/-- C10 witness: the dispatch at a one-character decoy body. -/
theorem C10_socks_decoy_witness :
    Proxy.socketSessionDispatch "x" true false =
        Proxy.ClientAction.decoyThenClose (Proxy.goStrBytes (Proxy.defaultHtml "x")) ∧
      (Proxy.goStrBytes (Proxy.defaultHtml "x")).take 17 =
        Proxy.goStrBytes "HTTP/1.1 200 OK\r\n" ∧
      (Proxy.goStrBytes (Proxy.defaultHtml "x")).head? = some 72 :=
  C10_socks_decoy_on_egress_failure "x"
